import Mathlib

/-!
Verification of the quadratic motion model of DMMN
(`motion_model/motion_model_quadratic.py`).

Embedding conventions.
Floats are idealised as rationals, at two levels of detail.  `FV` (`Option ℚ`)
models finite values plus NaN (`none`), with every arithmetic operation
propagating NaN; it serves the claims for which float saturation is
irrelevant.  `FP` additionally models the signed infinities, so that the
overflow of `np.exp` to `+inf` — a non-finite value that `np.isnan` does NOT
detect — is representable; the overflow threshold of the float exponential is
a parameter `cut` (float64 overflows near 709.78, and no probed argument lies
near the boundary).
The transcendental library functions `np.exp` and `np.log` have no computable
rational counterpart, so each code path that applies one receives it as an
explicit function argument (`rexp`, `rlog`); theorems quantify over it, and
concrete evaluations instantiate it with a computable stand-in that agrees
with the real function at every probed point.
`scipy.optimize.curve_fit` is an external library dependency, modelled as an
abstract `Solver` argument returning `none` when the library raises.
`dataset.utils.common.get_cx_cy_w_h` is repository code that is not under
src/; it is modelled from the spec (see its doc comment).
-/

namespace MMQ

/-- Array scalars: `some q` is a finite float value (idealised as a rational),
`none` models NaN.  numpy's `np.isnan` is `Option.isNone` here. -/
abbrev FV := Option ℚ

/-- Lift a binary float operation; NaN in either operand propagates. -/
def fvBin (f : ℚ → ℚ → ℚ) : FV → FV → FV
  | some a, some b => some (f a b)
  | _, _ => none

def fvAdd (a b : FV) : FV := fvBin (fun x y => x + y) a b

def fvSub (a b : FV) : FV := fvBin (fun x y => x - y) a b

def fvMul (a b : FV) : FV := fvBin (fun x y => x * y) a b

/-- Division by the constant 2.0 (`cx_cy_w_h[:, 2:] / 2.`); NaN propagates. -/
def fvHalf (a : FV) : FV := Option.map (fun x => x / 2) a

/-- Elementwise application of a unary float function (e.g. `np.exp`);
NaN propagates. -/
def fvMap (f : ℚ → ℚ) (a : FV) : FV := Option.map f a

/-- A 4x3 parameter block: one row per derived signal (cx, cy, w, h), one
column per polynomial coefficient (p0, p1, p2). -/
abbrev Params := Fin 4 → Fin 3 → ℚ

/-- A 4x3 parameter block of array scalars (entries may be NaN). -/
abbrev FVParams := Fin 4 → Fin 3 → FV

/-- `model_func(x, p0, p1, p2) = p2*x*x + p1*x + p0` (line 42); also
`model_func_torch` (line 46), which is textually identical. -/
def model_func (x p0 p1 p2 : FV) : FV :=
  fvAdd (fvAdd (fvMul (fvMul p2 x) x) (fvMul p1 x)) p0

/-- Modelled from the spec: `get_cx_cy_w_h` lives in
`dataset/utils/common.py`, which is not under src/.  Per the spec's data
model, the derived signal of a `(left, top, right, bottom)` box is the four
scalars center-x, center-y, width, height, and `fit` enumerates the result
signal-major (one row per signal, one entry per observation). -/
def get_cx_cy_w_h (bboxes : List (Fin 4 → ℚ)) : Fin 4 → List ℚ
  | 0 => bboxes.map fun b => (b 0 + b 2) / 2
  | 1 => bboxes.map fun b => (b 1 + b 3) / 2
  | 2 => bboxes.map fun b => b 2 - b 0
  | 3 => bboxes.map fun b => b 3 - b 1

/-- `scipy.optimize.curve_fit` as called on line 61: it receives the sample
positions `x`, the observed values `y`, and the lower/upper box bounds for
the three coefficients, and returns the fitted triple `popt`, or `none` when
the library raises (non-convergence, shape mismatch, too few data points). -/
def Solver : Type :=
  List ℚ → List ℚ → (Fin 3 → ℚ) → (Fin 3 → WithTop ℚ) → Option (Fin 3 → ℚ)

/-- Lower bounds `[0, -0.1, 0]` passed to `curve_fit` (line 64). -/
def lowerBounds : Fin 3 → ℚ
  | 0 => 0
  | 1 => -0.1
  | 2 => 0

/-- Upper bounds `[np.inf, 1.1, 3]` passed to `curve_fit` (line 64);
`np.inf` is the top element. -/
def upperBounds : Fin 3 → WithTop ℚ
  | 0 => ⊤
  | 1 => ((1.1 : ℚ) : WithTop ℚ)
  | 2 => ((3 : ℚ) : WithTop ℚ)

/-- `np.clip(res, a_min=1e-8, a_max=None)` on one scalar (line 54). -/
def clampFloor (v : ℚ) : ℚ := max v 1e-8

/-- Assemble the four fitted coefficient rows into the 4x3 block
(`np.array(parameters)`, line 68). -/
def rows4 (a b c d : Fin 3 → ℚ) : Params
  | 0 => a
  | 1 => b
  | 2 => c
  | 3 => d

/-- `fit(bboxes, times)` (lines 49-72).  `times = none` models the `times is
None` default.  The four signals are fitted sequentially; the `try`/bare
`except` around the loop makes the whole fit return `None` as soon as any
signal's `curve_fit` call raises, which the `Option` bind chain mirrors.
The returned value is also what the method stores in `self.parameters`. -/
def fit (rlog : ℚ → ℚ) (s : Solver) (bboxes : List (Fin 4 → ℚ))
    (times : Option (List ℚ)) : Option Params :=
  let x := times.getD ((List.range bboxes.length).map fun k => (k : ℚ))
  let res : Fin 4 → List ℚ := fun i => (get_cx_cy_w_h bboxes i).map clampFloor
  let fitSignal : Fin 4 → Option (Fin 3 → ℚ) := fun i =>
    s x ((res i).map rlog) lowerBounds upperBounds
  do
    let p0 ← fitSignal 0
    let p1 ← fitSignal 1
    let p2 ← fitSignal 2
    let p3 ← fitSignal 3
    pure (rows4 p0 p1 p2 p3)

/-- One signal's regression as the spec words it: fit the quadratic model to
the observed log of the signal, each sample clamped to the floor 1e-8 before
the natural logarithm, under the box constraints p0 in [0, inf), p1 in
[-0.1, 1.1], p2 in [0, 3]. -/
def fitRowSpec (rlog : ℚ → ℚ) (s : Solver) (bboxes : List (Fin 4 → ℚ))
    (x : List ℚ) (i : Fin 4) : Option (Fin 3 → ℚ) :=
  s x ((get_cx_cy_w_h bboxes i).map fun v => rlog (max v 1e-8))
    lowerBounds upperBounds

/-- The whole fit as the spec words it: the four signals are fitted
independently, and the fit is atomic — it succeeds with all four rows or
fails as a whole. -/
def fitSpec (rlog : ℚ → ℚ) (s : Solver) (bboxes : List (Fin 4 → ℚ))
    (x : List ℚ) : Option Params :=
  if ∀ i : Fin 4, (fitRowSpec rlog s bboxes x i).isSome then
    some (fun i => (fitRowSpec rlog s bboxes x i).getD fun _ => 0)
  else none

/-- One reconstructed `(cx, cy, w, h)` row:
`np.exp(model_func(t, p[:, 0], p[:, 1], p[:, 2]))` (lines 77, 93). -/
def cxcywhRow (rexp : ℚ → ℚ) (p : FVParams) (t : FV) : Fin 4 → FV :=
  fun i => fvMap rexp (model_func t (p i 0) (p i 1) (p i 2))

/-- `cx_cy_w_h[np.sum(np.isnan(cx_cy_w_h), axis=1) > 0, :] = np.zeros((4))`
(line 95), restricted to one row: a row holding at least one NaN is replaced
by the all-zero row, any other row is kept. -/
def nanZeroRow (row : Fin 4 → FV) : Fin 4 → FV :=
  if 0 < (List.finRange 4).countP (fun i => (row i).isNone) then
    fun _ => some 0
  else row

/-- `(cx, cy, w, h)` to `(left, top, right, bottom)`:
`concatenate([cxy - wh/2, cxy + wh/2])` (lines 82, 97). -/
def bboxFromCxcywh (v : Fin 4 → FV) : Fin 4 → FV
  | 0 => fvSub (v 0) (fvHalf (v 2))
  | 1 => fvSub (v 1) (fvHalf (v 3))
  | 2 => fvAdd (v 0) (fvHalf (v 2))
  | 3 => fvAdd (v 1) (fvHalf (v 3))

/-- `get_bbox_by_frame(time)` (lines 75-82), for a fitter holding parameter
block `p`: exponentiate the quadratic model per row, convert to corners.
No NaN handling at this granularity. -/
def get_bbox_by_frame (rexp : ℚ → ℚ) (p : FVParams) (t : FV) : Fin 4 → FV :=
  bboxFromCxcywh (cxcywhRow rexp p t)

/-- `get_bbox_by_frames(times)` (lines 84-98): tile the times against the
4 parameter rows, exponentiate the quadratic model, zero every row holding a
NaN, then convert to `(l, t, r, b)` corners. -/
def get_bbox_by_frames (rexp : ℚ → ℚ) {n : ℕ} (p : FVParams)
    (times : Fin n → FV) : Fin n → Fin 4 → FV :=
  fun q => bboxFromCxcywh (nanZeroRow (cxcywhRow rexp p (times q)))

/-- `get_bbox_by_frames_pytorch(parameters, times)` (lines 150-175):
`parameters` has shape (B, T, 4, 3) and `times` shape (B, Q); both are
broadcast to (B, Q, T, 4) and the quadratic model is evaluated elementwise.
The function returns that tensor directly: there is no exponentiation, no
corner conversion, and the NaN-zeroing is commented out in the source. -/
def get_bbox_by_frames_pytorch {B Q T : ℕ}
    (parameters : Fin B → Fin T → Fin 4 → Fin 3 → FV)
    (times : Fin B → Fin Q → FV) : Fin B → Fin Q → Fin T → Fin 4 → FV :=
  fun b q tr i =>
    model_func (times b q) (parameters b tr i 0) (parameters b tr i 1)
      (parameters b tr i 2)

/-- IEEE-style array scalars for the paths where the NaN / infinity
distinction matters: NaN, the two signed infinities, and finite values
(idealised as exact rationals; the one float saturation the claims exercise
— overflow of the exponential — is modelled in `fpExp`). -/
inductive FP
  | nan : FP
  | pinf : FP
  | ninf : FP
  | fin (q : ℚ) : FP
deriving DecidableEq

/-- `np.isnan` on one scalar: true exactly on NaN — not on the infinities,
which are non-finite but pass this test. -/
def FP.isnan : FP → Bool
  | nan => true
  | _ => false

/-- IEEE addition: NaN propagates, opposite infinities give NaN. -/
def FP.add : FP → FP → FP
  | nan, _ => nan
  | _, nan => nan
  | pinf, ninf => nan
  | ninf, pinf => nan
  | pinf, _ => pinf
  | _, pinf => pinf
  | ninf, _ => ninf
  | _, ninf => ninf
  | fin a, fin b => fin (a + b)

/-- IEEE negation. -/
def FP.neg : FP → FP
  | nan => nan
  | pinf => ninf
  | ninf => pinf
  | fin a => fin (-a)

/-- IEEE subtraction; in particular `inf - inf = NaN`. -/
def FP.sub (a b : FP) : FP := a.add b.neg

/-- IEEE multiplication: NaN propagates, `inf * 0 = NaN`, signs combine. -/
def FP.mul : FP → FP → FP
  | nan, _ => nan
  | _, nan => nan
  | pinf, pinf => pinf
  | pinf, ninf => ninf
  | ninf, pinf => ninf
  | ninf, ninf => pinf
  | pinf, fin b => if b = 0 then nan else if 0 < b then pinf else ninf
  | fin a, pinf => if a = 0 then nan else if 0 < a then pinf else ninf
  | ninf, fin b => if b = 0 then nan else if 0 < b then ninf else pinf
  | fin a, ninf => if a = 0 then nan else if 0 < a then ninf else pinf
  | fin a, fin b => fin (a * b)

/-- Division by the constant 2.0; infinities and NaN pass through. -/
def FP.half : FP → FP
  | nan => nan
  | pinf => pinf
  | ninf => ninf
  | fin a => fin (a / 2)

/-- `np.exp` on float64: NaN propagates, `exp(+inf) = +inf`,
`exp(-inf) = 0`, and a finite argument above the overflow threshold `cut`
saturates to `+inf` (float64 overflows near 709.78); below it, the finite
value `rexp a`. -/
def fpExp (rexp : ℚ → ℚ) (cut : ℚ) : FP → FP
  | FP.nan => FP.nan
  | FP.pinf => FP.pinf
  | FP.ninf => FP.fin 0
  | FP.fin a => if cut < a then FP.pinf else FP.fin (rexp a)

/-- `model_func` on IEEE scalars: `p2*x*x + p1*x + p0`. -/
def model_func_fp (x p0 p1 p2 : FP) : FP :=
  FP.add (FP.add (FP.mul (FP.mul p2 x) x) (FP.mul p1 x)) p0

/-- One reconstructed `(cx, cy, w, h)` row of `get_bbox_by_frames`
(line 93) on IEEE scalars, with the exponential's overflow modelled. -/
def cxcywhRowFP (rexp : ℚ → ℚ) (cut : ℚ) (p : Fin 4 → Fin 3 → FP)
    (t : FP) : Fin 4 → FP :=
  fun i => fpExp rexp cut (model_func_fp t (p i 0) (p i 1) (p i 2))

/-- The zeroing of line 95 on IEEE scalars: the row is replaced by zeros
exactly when `np.isnan` counts at least one NaN in it — an infinity does
not trigger it. -/
def nanZeroRowFP (row : Fin 4 → FP) : Fin 4 → FP :=
  if 0 < (List.finRange 4).countP (fun i => (row i).isnan) then
    fun _ => FP.fin 0
  else row

/-- The corner conversion of line 97 on IEEE scalars. -/
def bboxFromCxcywhFP (v : Fin 4 → FP) : Fin 4 → FP
  | 0 => FP.sub (v 0) (FP.half (v 2))
  | 1 => FP.sub (v 1) (FP.half (v 3))
  | 2 => FP.add (v 0) (FP.half (v 2))
  | 3 => FP.add (v 1) (FP.half (v 3))

/-- `get_bbox_by_frames(times)` (lines 84-98) on IEEE scalars. -/
def get_bbox_by_frames_fp (rexp : ℚ → ℚ) (cut : ℚ) {n : ℕ}
    (p : Fin 4 → Fin 3 → FP) (times : Fin n → FP) : Fin n → Fin 4 → FP :=
  fun q => bboxFromCxcywhFP (nanZeroRowFP (cxcywhRowFP rexp cut p (times q)))

/-- `get_invalid_params()` (lines 100-102): the 4x3 all-zero sentinel. -/
def get_invalid_params : Params := fun _ _ => 0

/-- `get_num_parameter()` (lines 108-110). -/
def get_num_parameter : ℕ := 12

/-- The float format used by `get_str` (two digits after the decimal point;
ties are modelled as rounding half up, which the probed inputs never
exercise). -/
def fmtFloat2 (q : ℚ) : String :=
  (if round (q * 100) < 0 then "-" else "") ++
    toString ((round (q * 100)).natAbs / 100) ++ "." ++
    (if (round (q * 100)).natAbs % 100 < 10 then "0" else "") ++
    toString ((round (q * 100)).natAbs % 100)

/-- `get_str(parameters)` (lines 145-148): takes row 0 of the block (the
center-x signal) and renders, in order, `p[0]` in the t^2 slot, `p[1]` in
the t slot and `p[2]` as the constant. -/
def get_str (parameters : Params) : String :=
  "x = " ++ fmtFloat2 (parameters 0 0) ++ "t^2+" ++ fmtFloat2 (parameters 0 1)
    ++ "t+" ++ fmtFloat2 (parameters 0 2)

/-- The uncaught Python exceptions the evaluators raise when the stored
parameters are `None`. -/
inductive PyErr
  /-- `p[:, 0]` with `p = None`: TypeError, NoneType is not subscriptable. -/
  | typeErr : PyErr
  /-- `self.parameters.shape` with `None`: AttributeError on NoneType. -/
  | attrErr : PyErr

/-- View a successfully fitted (hence NaN-free) block as array scalars. -/
def liftParams (p : Params) : FVParams := fun i j => some (p i j)

/-- `get_bbox_by_frame` as invoked on a fitter whose stored parameters are
`stored`: with `None` stored, line 77 subscripts `None` and raises. -/
def get_bbox_by_frame_run (rexp : ℚ → ℚ) (stored : Option Params) (t : FV) :
    Except PyErr (Fin 4 → FV) :=
  match stored with
  | none => Except.error PyErr.typeErr
  | some p => Except.ok (get_bbox_by_frame rexp (liftParams p) t)

/-- `get_bbox_by_frames` as invoked on a fitter whose stored parameters are
`stored`: with `None` stored, line 90 reads `.shape` of `None` and raises. -/
def get_bbox_by_frames_run (rexp : ℚ → ℚ) {n : ℕ} (stored : Option Params)
    (times : Fin n → FV) : Except PyErr (Fin n → Fin 4 → FV) :=
  match stored with
  | none => Except.error PyErr.attrErr
  | some p => Except.ok (get_bbox_by_frames rexp (liftParams p) times)

/-- The driver-facing input array `bboxes_with_overlap_class` of
`get_parameters`: (frames, tracks, 6 channels) with channels 0-3 the
geometry, channel 4 the existence flag and channel 5 the class/occlusion
confidence.  `m + 1` frames keeps `.max(axis=0)` total. -/
abbrev BoxArr (m T : ℕ) := Fin (m + 1) → Fin T → Fin 6 → ℚ

/-- `np.logical_and(np.sum(bbs, axis=1) > 0, p_e[:, i] > 0)` (line 131).
The loop writes `p_e[:, i]` only after fitting track `i`, so the flags read
here are the caller's original channel-4 values. -/
def trackMask {m T : ℕ} (A : BoxArr m T) (i : Fin T) (f : Fin (m + 1)) :
    Bool :=
  decide (0 < A f i 0 + A f i 1 + A f i 2 + A f i 3) && decide (0 < A f i 4)

/-- The frame indices selected by `bbox_mask`, in frame order. -/
def maskedFrames {m T : ℕ} (A : BoxArr m T) (i : Fin T) :
    List (Fin (m + 1)) :=
  (List.finRange (m + 1)).filter (trackMask A i)

/-- `bbs[bbox_mask, :]` (line 133): the masked geometry rows of track `i`. -/
def trackBoxes {m T : ℕ} (A : BoxArr m T) (i : Fin T) : List (Fin 4 → ℚ) :=
  (maskedFrames A i).map fun f => fun c : Fin 4 =>
    A f i (Fin.castLE (by norm_num) c)

/-- `.max(axis=0)` over the frame axis of one track's channel. -/
def colMax {m : ℕ} (g : Fin (m + 1) → ℚ) : ℚ :=
  (List.finRange (m + 1)).foldl (fun acc f => max acc (g f)) (g 0)

/-- `mm.fit(bbs[bbox_mask, :], times[bbox_mask])` (line 133). -/
def trackFit (rlog : ℚ → ℚ) (s : Solver) {m T : ℕ} (A : BoxArr m T)
    (times : Fin (m + 1) → ℚ) (i : Fin T) : Option Params :=
  fit rlog s (trackBoxes A i) (some ((maskedFrames A i).map times))

/-- What `get_parameters` hands back: the stacked parameter blocks, the
returned frame-validity `p_e`, the track confidences `p_c`, and the caller's
input array as it stands after the call (the loop assigns into the channel-4
view `p_e = bboxes_with_overlap_class[:, :, 4]`, mutating it in place). -/
structure FitBatchResult (m T : ℕ) where
  params : Fin T → Params
  validity : Fin (m + 1) → Fin T → ℚ
  confidence : Fin T → ℚ
  arr : BoxArr m T

/-- `get_parameters(bboxes_with_overlap_class, times, invalid_node_rate)`
(lines 112-143).  `p_c` is the frame-wise maximum of channel 5, computed
before the loop; a track whose fit returns `None` gets the invalid sentinel
block and its confidence forced to 0; `p_e[:, i]` is overwritten with the
boolean fitting mask (True as 1.0, False as 0.0).  The `invalid_node_rate`
argument is bound but never read by the body, exactly as in the source. -/
def get_parameters (rlog : ℚ → ℚ) (s : Solver) {m T : ℕ}
    (bboxes_with_overlap_class : BoxArr m T) (times : Fin (m + 1) → ℚ)
    (invalid_node_rate : ℚ) : FitBatchResult m T :=
  let A := bboxes_with_overlap_class
  let arr2 : BoxArr m T := fun f i c =>
    if c = 4 then (if trackMask A i f then 1 else 0) else A f i c
  { params := fun i => (trackFit rlog s A times i).getD get_invalid_params
    validity := fun f i => arr2 f i 4
    confidence := fun i =>
      if (trackFit rlog s A times i).isNone then 0
      else colMax fun f => A f i 5
    arr := arr2 }

/-- One `fit` invocation: the library functions available to it and its
arguments. -/
structure FitCall where
  rlog : ℚ → ℚ
  solver : Solver
  bboxes : List (Fin 4 → ℚ)
  times : Option (List ℚ)

/-- The result of one `fit` call. -/
def applyFit (c : FitCall) : Option Params :=
  fit c.rlog c.solver c.bboxes c.times

/-- Run a sequence of `fit` calls against the stored `self.parameters`:
every call — the `try` branch and the `except` branch alike — overwrites the
stored block with its own result (lines 68, 70). -/
def runFits : Option Params → List FitCall → Option Params
  | st, [] => st
  | _, c :: rest => runFits (applyFit c) rest

/-- The storage policy the claim describes: a failed call would leave the
parameters of the most recent successful fit in place. -/
def lastSuccessful : Option Params → List FitCall → Option Params
  | st, [] => st
  | st, c :: rest =>
    lastSuccessful (match applyFit c with | some p => some p | none => st) rest

/-! Concrete instances used by counterexamples and witnesses. -/

/-- A computable stand-in for `np.exp`; it agrees with the real exponential
at the only point where a concrete theorem evaluates it: `exp 0 = 1`. -/
def expLin : ℚ → ℚ := fun v => 1 + v

/-- The identity as a stand-in for `np.log` in concrete runs whose solver
never inspects the observed values. -/
def idLog : ℚ → ℚ := fun v => v

/-- The all-zero 4x3 block as array scalars. -/
def fvZeroParams : FVParams := fun _ _ => some 0

/-- An IEEE-scalar block whose cx row carries a NaN coefficient. -/
def nanFPParams : Fin 4 → Fin 3 → FP := fun i j =>
  if i = 0 ∧ j = 0 then FP.nan else FP.fin 0

/-- An IEEE-scalar block whose cx row is `(p0, p1, p2) = (0, 0, 3)`:
`p2 = 3` sits exactly at the solver's upper bound, and at `t = 20` the
log-space value is `3 * 20^2 = 1200`, far past the float64 overflow
threshold of the exponential. -/
def infCexParams : Fin 4 → Fin 3 → FP := fun i j =>
  if i = 0 ∧ j = 2 then FP.fin 3 else FP.fin 0

/-- Three identical unit boxes. -/
def threeBoxes : List (Fin 4 → ℚ) := List.replicate 3 fun _ => 1

/-- A solver that always converges, to the constant-1 triple. -/
def okSolver : Solver := fun _ _ _ _ => some fun _ => 1

/-- A solver that always raises. -/
def failSolver : Solver := fun _ _ _ _ => none

/-- A solver that raises exactly when the sample positions and observed
values disagree in length, as the scipy machinery does on a genuine shape
mismatch. -/
def lenCheckSolver : Solver := fun x y _ _ =>
  if x.length = y.length then some fun _ => 1 else none

/-- A fit call that succeeds. -/
def callOK : FitCall := ⟨idLog, okSolver, threeBoxes, none⟩

/-- A fit call that fails. -/
def callFail : FitCall := ⟨idLog, failSolver, threeBoxes, none⟩

/-- Two frames, one track: frame 0 present (geometry (1,1,2,2), existence
flag 1), frame 1 missing (all-zero geometry, flag 0); channel 5 confidence
7/10 on both frames.  The present-frame fraction is 1/2. -/
def rateCexArr : BoxArr 1 1 := fun f _ c =>
  if f = 0 then
    (if c = 5 then 7 / 10 else if c = 4 then 1 else if c = 0 ∨ c = 1 then 1 else 2)
  else (if c = 5 then 7 / 10 else 0)

/-- Frame times 0 and 1 for `rateCexArr`. -/
def rateCexTimes : Fin 2 → ℚ := fun f => (f : ℚ)

/-- One frame, one track, all-zero geometry, existence flag 5 (so the
fitting mask is decided by the zero geometry and the flag value is lost when
channel 4 is overwritten). -/
def viewCexArr : BoxArr 0 1 := fun _ _ c => if c = 4 then 5 else 0

/-- A block whose cx row is `(p0, p1, p2) = (1, 2, 3)`: the modelled curve
is `log cx = 3t^2 + 2t + 1`. -/
def strCexParams : Params := fun i j =>
  if i = 0 then (if j = 0 then 1 else if j = 1 then 2 else 3) else 0

/-! Helper lemmas. -/

theorem nanZeroRow_of_finite (row : Fin 4 → FV) (h : ∀ i, row i ≠ none) :
    nanZeroRow row = row := by
  unfold nanZeroRow
  rw [if_neg]
  intro hpos
  obtain ⟨i, _, hi⟩ := List.countP_pos_iff.mp hpos
  exact h i (Option.isNone_iff_eq_none.mp (by simpa using hi))

theorem nanZeroRowFP_of_nan (row : Fin 4 → FP)
    (h : ∃ i, (row i).isnan = true) :
    nanZeroRowFP row = fun _ => FP.fin 0 := by
  obtain ⟨i, hi⟩ := h
  unfold nanZeroRowFP
  rw [if_pos]
  exact List.countP_pos_iff.mpr ⟨i, List.mem_finRange i, hi⟩

theorem nanZeroRowFP_of_no_nan (row : Fin 4 → FP)
    (h : ∀ i, (row i).isnan = false) :
    nanZeroRowFP row = row := by
  unfold nanZeroRowFP
  rw [if_neg]
  intro hpos
  obtain ⟨i, _, hi⟩ := List.countP_pos_iff.mp hpos
  rw [h i] at hi
  exact Bool.false_ne_true hi

theorem infCexRow_eval :
    cxcywhRowFP expLin 710 infCexParams (FP.fin 20) 0 = FP.pinf
    ∧ cxcywhRowFP expLin 710 infCexParams (FP.fin 20) 1 = FP.fin 1
    ∧ cxcywhRowFP expLin 710 infCexParams (FP.fin 20) 2 = FP.fin 1
    ∧ cxcywhRowFP expLin 710 infCexParams (FP.fin 20) 3 = FP.fin 1 := by
  refine ⟨?_, ?_, ?_, ?_⟩
  · show (if (710 : ℚ) < 3 * 20 * 20 + 0 * 20 + 0 then FP.pinf
      else FP.fin (expLin (3 * 20 * 20 + 0 * 20 + 0))) = FP.pinf
    rw [if_pos (by norm_num)]
  all_goals
    show (if (710 : ℚ) < 0 * 20 * 20 + 0 * 20 + 0 then FP.pinf
      else FP.fin (expLin (0 * 20 * 20 + 0 * 20 + 0))) = FP.fin 1
    rw [if_neg (by norm_num)]
    exact congrArg FP.fin (by norm_num [expLin])

theorem trackMask_congr {m T : ℕ} (A A2 : BoxArr m T) (i : Fin T)
    (hAi : ∀ f c, A f i c = A2 f i c) : trackMask A i = trackMask A2 i := by
  funext f
  unfold trackMask
  rw [hAi f 0, hAi f 1, hAi f 2, hAi f 3, hAi f 4]

theorem trackFit_congr (rlog : ℚ → ℚ) (s : Solver) {m T : ℕ}
    (A A2 : BoxArr m T) (times : Fin (m + 1) → ℚ) (i : Fin T)
    (hAi : ∀ f c, A f i c = A2 f i c) :
    trackFit rlog s A times i = trackFit rlog s A2 times i := by
  have hm : maskedFrames A i = maskedFrames A2 i := by
    unfold maskedFrames
    rw [trackMask_congr A A2 i hAi]
  unfold trackFit trackBoxes
  rw [hm]
  have hb : ((maskedFrames A2 i).map fun f => fun c : Fin 4 =>
        A f i (Fin.castLE (by norm_num) c))
      = (maskedFrames A2 i).map fun f => fun c : Fin 4 =>
        A2 f i (Fin.castLE (by norm_num) c) := by
    apply List.map_congr_left
    intro f _
    funext c
    exact hAi f _
  rw [hb]

theorem bind4_eq_ite (f : Fin 4 → Option (Fin 3 → ℚ)) :
    ((f 0).bind fun p0 => (f 1).bind fun p1 => (f 2).bind fun p2 =>
      (f 3).bind fun p3 => some (rows4 p0 p1 p2 p3))
    = if ∀ i, (f i).isSome then some (fun i => (f i).getD fun _ => 0)
      else none := by
  by_cases h : ∀ i : Fin 4, (f i).isSome
  · rw [if_pos h]
    obtain ⟨a0, h0⟩ := Option.isSome_iff_exists.mp (h 0)
    obtain ⟨a1, h1⟩ := Option.isSome_iff_exists.mp (h 1)
    obtain ⟨a2, h2⟩ := Option.isSome_iff_exists.mp (h 2)
    obtain ⟨a3, h3⟩ := Option.isSome_iff_exists.mp (h 3)
    rw [h0, h1, h2, h3]
    simp only [Option.some_bind, Option.some.injEq]
    funext i
    fin_cases i <;> simp [rows4, h0, h1, h2, h3]
  · rw [if_neg h]
    cases hf0 : f 0 with
    | none => rfl
    | some p0 =>
      cases hf1 : f 1 with
      | none => rfl
      | some p1 =>
        cases hf2 : f 2 with
        | none => rfl
        | some p2 =>
          cases hf3 : f 3 with
          | none => rfl
          | some p3 =>
            exfalso
            apply h
            intro i
            fin_cases i <;> simp [hf0, hf1, hf2, hf3]

/-! Claim theorems. -/

/-- Claim C1, counterexample.  At the all-zero parameter block and query
time 0 (with the exponential, which both paths would have to share, probed
only at `exp 0 = 1`), the array evaluator returns the box
(1/2, 1/2, 3/2, 3/2) while the tensor evaluator returns (0, 0, 0, 0): the
two paths are not numerically equivalent. -/
theorem pytorch_path_cex :
    get_bbox_by_frames expLin fvZeroParams (fun _ : Fin 1 => some 0) 0 0
      ≠ get_bbox_by_frames_pytorch (fun _ _ : Fin 1 => fvZeroParams)
          (fun _ _ : Fin 1 => some 0) 0 0 0 0 := by
  have hL : get_bbox_by_frames expLin fvZeroParams (fun _ : Fin 1 => some 0) 0 0
      = some (1 / 2) := by
    show bboxFromCxcywh (nanZeroRow (cxcywhRow expLin fvZeroParams (some 0))) 0
      = some (1 / 2)
    rw [nanZeroRow_of_finite _ (by decide)]
    show fvSub (cxcywhRow expLin fvZeroParams (some 0) 0)
        (fvHalf (cxcywhRow expLin fvZeroParams (some 0) 2)) = some (1 / 2)
    simp only [cxcywhRow, model_func, fvMul, fvAdd, fvSub, fvHalf, fvMap,
      fvBin, fvZeroParams, expLin, Option.map_some']
    norm_num
  have hR : get_bbox_by_frames_pytorch (fun _ _ : Fin 1 => fvZeroParams)
      (fun _ _ : Fin 1 => some 0) 0 0 0 0 = some 0 := by
    simp only [get_bbox_by_frames_pytorch, model_func, fvMul, fvAdd, fvBin,
      fvZeroParams]
    norm_num
  rw [hL, hR]
  simp only [ne_eq, Option.some.injEq]
  norm_num

/-- Claim C1, amended: the tensor-batched evaluator stops at the log-space
quadratic model values.  Applying the missing post-processing recovers the
array path: exponentiating its output elementwise yields exactly the array
evaluator's reconstructed `(cx, cy, w, h)` before NaN-zeroing, and applying
the full exponentiation, NaN-zeroing and corner conversion to its output
reproduces the array evaluator's boxes. -/
theorem pytorch_path_refines_array_path (rexp : ℚ → ℚ) {B Q T : ℕ}
    (parameters : Fin B → Fin T → Fin 4 → Fin 3 → FV)
    (times : Fin B → Fin Q → FV) (b : Fin B) (q : Fin Q) (tr : Fin T) :
    (∀ i, fvMap rexp (get_bbox_by_frames_pytorch parameters times b q tr i)
        = cxcywhRow rexp (parameters b tr) (times b q) i)
    ∧ get_bbox_by_frames rexp (parameters b tr) (fun q2 => times b q2) q
        = bboxFromCxcywh (nanZeroRow (fun i =>
            fvMap rexp (get_bbox_by_frames_pytorch parameters times b q tr i))) :=
  ⟨fun _ => rfl, rfl⟩

/-- Claim C2, counterexample.  Line 95 zeroes on `np.isnan` only: with the
in-bounds coefficient `p2 = 3` (the solver's own upper bound) and query
time 20, the log-space cx value is 1200 and the float exponential overflows
to `+inf` — a non-finite value that is not NaN — so the reconstructed
4-vector contains a non-finite entry yet the emitted box is
`(+inf, 1/2, +inf, 3/2)`, not the all-zero box the claim requires.
(`expLin` agrees with the real exponential at the probed finite argument 0,
and 710 is the float64 overflow threshold, far below 1200.) -/
theorem nan_policy_cex :
    infCexParams 0 2 = FP.fin 3
    ∧ cxcywhRowFP expLin 710 infCexParams (FP.fin 20) 0 = FP.pinf
    ∧ get_bbox_by_frames_fp expLin 710 infCexParams
        (fun _ : Fin 1 => FP.fin 20) 0 0 = FP.pinf
    ∧ FP.pinf.isnan = false
    ∧ FP.pinf ≠ FP.fin 0 := by
  have hnz : nanZeroRowFP (cxcywhRowFP expLin 710 infCexParams (FP.fin 20))
      = cxcywhRowFP expLin 710 infCexParams (FP.fin 20) := by
    apply nanZeroRowFP_of_no_nan
    intro i
    fin_cases i
    · show (cxcywhRowFP expLin 710 infCexParams (FP.fin 20) 0).isnan = false
      rw [infCexRow_eval.1]
      rfl
    · show (cxcywhRowFP expLin 710 infCexParams (FP.fin 20) 1).isnan = false
      rw [infCexRow_eval.2.1]
      rfl
    · show (cxcywhRowFP expLin 710 infCexParams (FP.fin 20) 2).isnan = false
      rw [infCexRow_eval.2.2.1]
      rfl
    · show (cxcywhRowFP expLin 710 infCexParams (FP.fin 20) 3).isnan = false
      rw [infCexRow_eval.2.2.2]
      rfl
  refine ⟨rfl, infCexRow_eval.1, ?_, rfl, by decide⟩
  show bboxFromCxcywhFP
    (nanZeroRowFP (cxcywhRowFP expLin 710 infCexParams (FP.fin 20))) 0
    = FP.pinf
  rw [hnz]
  show FP.sub (cxcywhRowFP expLin 710 infCexParams (FP.fin 20) 0)
    (FP.half (cxcywhRowFP expLin 710 infCexParams (FP.fin 20) 2)) = FP.pinf
  rw [infCexRow_eval.1, infCexRow_eval.2.2.1]
  rfl

/-- Claim C2, amended: in the batched array evaluator, a query whose
reconstructed (cx, cy, w, h) holds at least one NaN yields the all-zero box
as a whole, and a query whose reconstruction passes the `np.isnan` test —
including reconstructions holding infinities from exponential overflow — is
converted to corners unchanged, so infinite boxes are not zeroed: the
zeroing policy covers NaN only, not every non-finite value. -/
theorem get_bbox_by_frames_nan_zeroing_fp (rexp : ℚ → ℚ) (cut : ℚ) {n : ℕ}
    (p : Fin 4 → Fin 3 → FP) (times : Fin n → FP) (q : Fin n) :
    ((∃ i, (cxcywhRowFP rexp cut p (times q) i).isnan = true) →
      ∀ j, get_bbox_by_frames_fp rexp cut p times q j = FP.fin 0)
    ∧ ((∀ i, (cxcywhRowFP rexp cut p (times q) i).isnan = false) →
      get_bbox_by_frames_fp rexp cut p times q
        = bboxFromCxcywhFP (cxcywhRowFP rexp cut p (times q))) := by
  refine ⟨fun h j => ?_, fun h => ?_⟩
  · show bboxFromCxcywhFP
      (nanZeroRowFP (cxcywhRowFP rexp cut p (times q))) j = FP.fin 0
    rw [nanZeroRowFP_of_nan _ h]
    fin_cases j <;> exact congrArg FP.fin (by norm_num)
  · show bboxFromCxcywhFP
      (nanZeroRowFP (cxcywhRowFP rexp cut p (times q))) = _
    rw [nanZeroRowFP_of_no_nan _ h]

/-- Claim C2 (amended), witness: a run whose cx coefficient is NaN comes
back as the all-zero box, while the overflowing (infinite but NaN-free) run
of the counterexample block is converted unchanged — not zeroed. -/
theorem get_bbox_by_frames_nan_zeroing_fp_witness :
    (∀ j, get_bbox_by_frames_fp expLin 710 nanFPParams
        (fun _ : Fin 1 => FP.fin 0) 0 j = FP.fin 0)
    ∧ get_bbox_by_frames_fp expLin 710 infCexParams
        (fun _ : Fin 1 => FP.fin 20) 0
      = bboxFromCxcywhFP (cxcywhRowFP expLin 710 infCexParams (FP.fin 20)) := by
  constructor
  · exact (get_bbox_by_frames_nan_zeroing_fp expLin 710 nanFPParams
      (fun _ : Fin 1 => FP.fin 0) 0).1 ⟨0, by decide⟩
  · refine (get_bbox_by_frames_nan_zeroing_fp expLin 710 infCexParams
      (fun _ : Fin 1 => FP.fin 20) 0).2 ?_
    intro i
    fin_cases i
    · show (cxcywhRowFP expLin 710 infCexParams (FP.fin 20) 0).isnan = false
      rw [infCexRow_eval.1]
      rfl
    · show (cxcywhRowFP expLin 710 infCexParams (FP.fin 20) 1).isnan = false
      rw [infCexRow_eval.2.1]
      rfl
    · show (cxcywhRowFP expLin 710 infCexParams (FP.fin 20) 2).isnan = false
      rw [infCexRow_eval.2.2.1]
      rfl
    · show (cxcywhRowFP expLin 710 infCexParams (FP.fin 20) 3).isnan = false
      rw [infCexRow_eval.2.2.2]
      rfl

/-- Claim C7: `get_str` on a block whose cx row is `(p0, p1, p2) = (1, 2, 3)`
prints `p0 = 1` in the t^2 slot and `p2 = 3` in the constant slot, whereas
the model `log(signal) = p2*t^2 + p1*t + p0` (and the claim) put the t^2
coefficient at `p2`, i.e. the render of this curve would be
`x = 3.00t^2+2.00t+1.00`. -/
theorem get_str_renders_storage_order :
    get_str strCexParams = "x = 1.00t^2+2.00t+3.00"
    ∧ get_str strCexParams ≠ "x = 3.00t^2+2.00t+1.00" := by
  have h0 : strCexParams 0 0 = 1 := rfl
  have h1 : strCexParams 0 1 = 2 := rfl
  have h2 : strCexParams 0 2 = 3 := rfl
  have hr0 : round ((1 : ℚ) * 100) = 100 := by norm_num
  have hr1 : round ((2 : ℚ) * 100) = 200 := by norm_num
  have hr2 : round ((3 : ℚ) * 100) = 300 := by norm_num
  have hstr : get_str strCexParams = "x = 1.00t^2+2.00t+3.00" := by
    unfold get_str fmtFloat2
    rw [h0, h1, h2, hr0, hr1, hr2]
    decide
  exact ⟨hstr, by rw [hstr]; decide⟩

/-- Claim C10: when the most recent fit failed, the stored parameters are
`None` (the value `fit` returns), and both evaluator entry points raise on
it — a TypeError from subscripting `None` in `get_bbox_by_frame`, an
AttributeError from reading `.shape` of `None` in `get_bbox_by_frames` —
rather than returning a sentinel or zero box. -/
theorem eval_after_failed_fit_errors (rexp rlog : ℚ → ℚ) (s : Solver)
    (bb : List (Fin 4 → ℚ)) (ts : Option (List ℚ))
    (h : fit rlog s bb ts = none) (t : FV) {n : ℕ} (qs : Fin n → FV) :
    get_bbox_by_frame_run rexp (fit rlog s bb ts) t
      = Except.error PyErr.typeErr
    ∧ get_bbox_by_frames_run rexp (fit rlog s bb ts) qs
      = Except.error PyErr.attrErr := by
  rw [h]
  exact ⟨rfl, rfl⟩

/-- Claim C3, counterexample.  With a threshold of 9/10 and a track whose
present-frame fraction is 1/2 (one of two frames passes the mask), the
orchestration still returns the solver's parameters and the channel-5
confidence 7/10 — it neither substitutes the invalid sentinel nor zeroes
the confidence, so the `invalid_node_rate` argument is not applied. -/
theorem get_parameters_rate_cex :
    (maskedFrames rateCexArr 0).length = 1
    ∧ ((1 : ℚ) / 2 < 9 / 10)
    ∧ (get_parameters idLog okSolver rateCexArr rateCexTimes (9 / 10)).confidence 0
        = 7 / 10
    ∧ (get_parameters idLog okSolver rateCexArr rateCexTimes (9 / 10)).params 0
        ≠ get_invalid_params := by
  have hm0 : trackMask rateCexArr 0 0 = true := by
    have h1 : (0 : ℚ) < rateCexArr 0 0 0 + rateCexArr 0 0 1 + rateCexArr 0 0 2
        + rateCexArr 0 0 3 := by
      show (0 : ℚ) < 1 + 1 + 2 + 2
      norm_num
    have h2 : (0 : ℚ) < rateCexArr 0 0 4 := by
      show (0 : ℚ) < 1
      norm_num
    simp [trackMask, h1, h2]
  have hm1 : trackMask rateCexArr 0 1 = false := by
    have h1 : ¬((0 : ℚ) < rateCexArr 1 0 0 + rateCexArr 1 0 1 + rateCexArr 1 0 2
        + rateCexArr 1 0 3) := by
      show ¬((0 : ℚ) < 0 + 0 + 0 + 0)
      norm_num
    simp [trackMask, h1]
  have hmask : maskedFrames rateCexArr 0 = [0] := by
    show (List.finRange 2).filter (trackMask rateCexArr 0) = [0]
    rw [show List.finRange 2 = [0, 1] from by decide]
    simp [hm0, hm1]
  have hfit : trackFit idLog okSolver rateCexArr rateCexTimes 0
      = some (rows4 (fun _ => 1) (fun _ => 1) (fun _ => 1) (fun _ => 1)) := rfl
  refine ⟨by rw [hmask]; rfl, by norm_num, ?_, ?_⟩
  · show (if (trackFit idLog okSolver rateCexArr rateCexTimes 0).isNone then 0
      else colMax fun f => rateCexArr f 0 5) = 7 / 10
    rw [hfit]
    have hc : colMax (fun f : Fin 2 => rateCexArr f 0 5) = 7 / 10 := by
      show (List.finRange 2).foldl (fun acc f => max acc (rateCexArr f 0 5))
        (rateCexArr 0 0 5) = 7 / 10
      rw [show List.finRange 2 = [0, 1] from by decide]
      show max (max ((7 : ℚ) / 10) (7 / 10)) (7 / 10) = 7 / 10
      simp
    simpa using hc
  · intro hEq
    have hp : (get_parameters idLog okSolver rateCexArr rateCexTimes
        (9 / 10)).params 0 0 0 = 1 := by
      show ((trackFit idLog okSolver rateCexArr rateCexTimes 0).getD
        get_invalid_params) 0 0 = 1
      rw [hfit]
      rfl
    have h00 := congrFun (congrFun hEq 0) 0
    rw [hp] at h00
    norm_num [get_invalid_params] at h00

/-- Claim C3, amended: `get_parameters` accepts `invalid_node_rate` but
never reads it — its entire result is identical for any two threshold
values; a track receives the sentinel block and confidence 0 only when the
solver fails, regardless of the fraction of present frames. -/
theorem get_parameters_rate_independent (rlog : ℚ → ℚ) (s : Solver)
    {m T : ℕ} (A : BoxArr m T) (times : Fin (m + 1) → ℚ) (r1 r2 : ℚ) :
    get_parameters rlog s A times r1 = get_parameters rlog s A times r2 := rfl

/-- Claim C4: on a length mismatch between `times` and the boxes, the
library call inside `fit` raises, but the bare `except` swallows it and
`fit` returns `None` — the very value that makes `get_parameters`
substitute the invalid sentinel silently.  (`hs` states that the solver,
like scipy, raises when the sample positions and observed values disagree
in length; the observed-value list of each signal has one entry per box.) -/
theorem fit_swallows_length_mismatch (rlog : ℚ → ℚ) (s : Solver)
    (hs : ∀ x y lo hi, x.length ≠ y.length → s x y lo hi = none)
    (bb : List (Fin 4 → ℚ)) (ts : List ℚ) (hlen : ts.length ≠ bb.length) :
    fit rlog s bb (some ts) = none := by
  have h0 : s ts (((get_cx_cy_w_h bb 0).map clampFloor).map rlog)
      lowerBounds upperBounds = none := by
    apply hs
    simpa [get_cx_cy_w_h] using hlen
  simp only [fit, Option.getD_some]
  rw [h0]
  rfl

/-- Claim C4, witness: two times against three boxes silently yields `None`
under a solver that raises exactly on length mismatch. -/
theorem fit_swallows_length_mismatch_witness :
    ([(0 : ℚ), 1].length ≠ threeBoxes.length)
    ∧ fit idLog lenCheckSolver threeBoxes (some [0, 1]) = none := by
  have hs : ∀ x y lo hi, x.length ≠ y.length → lenCheckSolver x y lo hi = none := by
    intro x y lo hi h
    simp [lenCheckSolver, h]
  exact ⟨by decide, fit_swallows_length_mismatch idLog lenCheckSolver hs
    threeBoxes [0, 1] (by decide)⟩

/-- Claim C8, counterexample.  After a successful fit followed by a failed
one, the stored parameters are `None` — not the block of the most recent
successful fit, which the storage policy described by the claim would have
kept. -/
theorem fit_state_cex :
    runFits none [callOK, callFail] = none
    ∧ lastSuccessful none [callOK, callFail] ≠ runFits none [callOK, callFail] := by
  refine ⟨rfl, ?_⟩
  show lastSuccessful none [callOK, callFail] ≠ none
  decide

/-- Claim C8, amended: the stored parameters after any sequence of fit
calls equal the result of the most recent call alone — a failed call
overwrites them with `None` rather than retaining the last successful
block — and no other state is carried across calls (the run is independent
of the state it starts from). -/
theorem fit_state_is_last_call (st : Option Params) (cs : List FitCall)
    (c : FitCall) :
    runFits st (cs ++ [c]) = applyFit c
    ∧ ∀ st2, runFits st (c :: cs) = runFits st2 (c :: cs) := by
  constructor
  · induction cs generalizing st with
    | nil => rfl
    | cons d ds ih => exact ih (applyFit d)
  · intro st2
    rfl

/-- Claim C9: the frame-validity output of `get_parameters` is the
channel-4 view of the caller's array as mutated by the call; every track's
channel-4 column is overwritten with the boolean fitting mask (1.0/0.0),
and no other channel is touched — so the caller's original existence flags
are destroyed. -/
theorem get_parameters_validity_is_view (rlog : ℚ → ℚ) (s : Solver)
    {m T : ℕ} (A : BoxArr m T) (times : Fin (m + 1) → ℚ) (r : ℚ) :
    (∀ f i, (get_parameters rlog s A times r).validity f i
        = (get_parameters rlog s A times r).arr f i 4)
    ∧ (∀ f i, (get_parameters rlog s A times r).arr f i 4
        = if trackMask A i f then 1 else 0)
    ∧ (∀ f i c, c ≠ 4 →
        (get_parameters rlog s A times r).arr f i c = A f i c) := by
  refine ⟨fun f i => rfl, fun f i => ?_, fun f i c hc => ?_⟩
  · show (if (4 : Fin 6) = 4 then (if trackMask A i f then (1 : ℚ) else 0)
      else A f i 4) = if trackMask A i f then 1 else 0
    rw [if_pos rfl]
  · show (if c = 4 then (if trackMask A i f then (1 : ℚ) else 0)
      else A f i c) = A f i c
    rw [if_neg hc]

/-- Claim C9, witness: a caller array with existence flag 5 and all-zero
geometry comes back with the flag overwritten by the mask value 0 (the flag
is destroyed), the returned validity is that view, and the geometry
channels are untouched. -/
theorem get_parameters_validity_is_view_witness :
    (get_parameters idLog failSolver viewCexArr (fun _ => 0) 0).validity 0 0 = 0
    ∧ viewCexArr 0 0 4 = 5
    ∧ (get_parameters idLog failSolver viewCexArr (fun _ => 0) 0).arr 0 0 0
        = viewCexArr 0 0 0 := by
  have h := get_parameters_validity_is_view idLog failSolver viewCexArr
    (fun _ => 0) 0
  refine ⟨?_, rfl, h.2.2 0 0 0 (by decide)⟩
  rw [h.1 0 0, h.2.1 0 0]
  have hm : trackMask viewCexArr 0 0 = false := by
    have h1 : ¬((0 : ℚ) < viewCexArr 0 0 0 + viewCexArr 0 0 1
        + viewCexArr 0 0 2 + viewCexArr 0 0 3) := by
      show ¬((0 : ℚ) < 0 + 0 + 0 + 0)
      norm_num
    simp [trackMask, h1]
  rw [hm]
  rfl

/-- Claim C5: the confidence `get_parameters` returns for a track is the
maximum of its per-frame channel-5 class/occlusion confidences, except
forced to exactly 0 when the track's fit fails, in which case its parameter
block is the all-zero sentinel; and every per-track output (parameters,
confidence, validity column) depends only on that track's own column of the
input, so one track's failure can never alter another track's outputs, and
the orchestration — a total function — raises nothing. -/
theorem get_parameters_confidence_isolation (rlog : ℚ → ℚ) (s : Solver)
    {m T : ℕ} (A A2 : BoxArr m T) (times : Fin (m + 1) → ℚ) (r r2 : ℚ)
    (i : Fin T) (hAi : ∀ f c, A f i c = A2 f i c) :
    ((get_parameters rlog s A times r).confidence i
      = if (trackFit rlog s A times i).isNone then 0
        else colMax fun f => A f i 5)
    ∧ (trackFit rlog s A times i = none →
        (get_parameters rlog s A times r).params i = get_invalid_params
        ∧ (get_parameters rlog s A times r).confidence i = 0)
    ∧ ((get_parameters rlog s A times r).params i
        = (get_parameters rlog s A2 times r2).params i
      ∧ (get_parameters rlog s A times r).confidence i
        = (get_parameters rlog s A2 times r2).confidence i
      ∧ ∀ f, (get_parameters rlog s A times r).validity f i
          = (get_parameters rlog s A2 times r2).validity f i) := by
  have hf := trackFit_congr rlog s A A2 times i hAi
  refine ⟨rfl, fun hnone => ⟨?_, ?_⟩, ?_, ?_, fun f => ?_⟩
  · show (trackFit rlog s A times i).getD get_invalid_params
      = get_invalid_params
    rw [hnone]
    rfl
  · show (if (trackFit rlog s A times i).isNone then 0
      else colMax fun f => A f i 5) = 0
    rw [hnone]
    rfl
  · show (trackFit rlog s A times i).getD get_invalid_params
      = (trackFit rlog s A2 times i).getD get_invalid_params
    rw [hf]
  · show (if (trackFit rlog s A times i).isNone then 0
        else colMax fun f => A f i 5)
      = if (trackFit rlog s A2 times i).isNone then 0
        else colMax fun f => A2 f i 5
    rw [hf, show (fun f => A f i 5) = fun f => A2 f i 5 from
      funext fun f => hAi f 5]
  · show (if trackMask A i f then (1 : ℚ) else 0)
      = if trackMask A2 i f then 1 else 0
    rw [trackMask_congr A A2 i hAi]

/-- Claim C5, witness: under an always-failing solver, a one-frame one-track
batch comes back with the sentinel block and confidence exactly 0. -/
theorem get_parameters_confidence_isolation_witness :
    (get_parameters idLog failSolver viewCexArr (fun _ => 0) 0).params 0
      = get_invalid_params
    ∧ (get_parameters idLog failSolver viewCexArr (fun _ => 0) 0).confidence 0
      = 0 := by
  have h := get_parameters_confidence_isolation idLog failSolver viewCexArr
    viewCexArr (fun _ => 0) 0 0 0 (fun _ _ => rfl)
  exact h.2.1 rfl

/-- Claim C6: `fit` defaults omitted times to `0..N-1`; against explicit
times it is, for every solver, exactly the spec-worded fit — the four
derived signals fitted independently, each sample clamped to the 1e-8 floor
before the logarithm, atomically (all four succeed or the fit fails as a
whole) — and the box bounds it passes are p0 in [0, inf), p1 in
[-0.1, 1.1], p2 in [0, 3]. -/
theorem fit_matches_spec (rlog : ℚ → ℚ) (s : Solver)
    (bb : List (Fin 4 → ℚ)) (ts : List ℚ) :
    fit rlog s bb none
      = fit rlog s bb (some ((List.range bb.length).map fun k => (k : ℚ)))
    ∧ fit rlog s bb (some ts) = fitSpec rlog s bb ts
    ∧ lowerBounds 0 = 0 ∧ lowerBounds 1 = -0.1 ∧ lowerBounds 2 = 0
    ∧ upperBounds 0 = ⊤ ∧ upperBounds 1 = ((1.1 : ℚ) : WithTop ℚ)
    ∧ upperBounds 2 = ((3 : ℚ) : WithTop ℚ) := by
  refine ⟨rfl, ?_, rfl, rfl, rfl, rfl, rfl, rfl⟩
  have hsig : ∀ i : Fin 4,
      s ts (((get_cx_cy_w_h bb i).map clampFloor).map rlog)
        lowerBounds upperBounds
      = fitRowSpec rlog s bb ts i := by
    intro i
    unfold fitRowSpec
    rw [List.map_map]
    rfl
  have hfit : fit rlog s bb (some ts)
      = ((fitRowSpec rlog s bb ts 0).bind fun p0 =>
          (fitRowSpec rlog s bb ts 1).bind fun p1 =>
          (fitRowSpec rlog s bb ts 2).bind fun p2 =>
          (fitRowSpec rlog s bb ts 3).bind fun p3 =>
          some (rows4 p0 p1 p2 p3)) := by
    show ((s ts (((get_cx_cy_w_h bb 0).map clampFloor).map rlog)
            lowerBounds upperBounds).bind fun p0 =>
          (s ts (((get_cx_cy_w_h bb 1).map clampFloor).map rlog)
            lowerBounds upperBounds).bind fun p1 =>
          (s ts (((get_cx_cy_w_h bb 2).map clampFloor).map rlog)
            lowerBounds upperBounds).bind fun p2 =>
          (s ts (((get_cx_cy_w_h bb 3).map clampFloor).map rlog)
            lowerBounds upperBounds).bind fun p3 =>
          some (rows4 p0 p1 p2 p3)) = _
    rw [hsig 0, hsig 1, hsig 2, hsig 3]
  rw [hfit, bind4_eq_ite (fitRowSpec rlog s bb ts)]
  rfl

/-- Claim C10, witness: a concrete failed fit stores `None`, and evaluating
that fitter raises. -/
theorem eval_after_failed_fit_errors_witness :
    fit idLog failSolver threeBoxes none = none
    ∧ get_bbox_by_frame_run expLin (fit idLog failSolver threeBoxes none)
        (some 0) = Except.error PyErr.typeErr := by
  have h : fit idLog failSolver threeBoxes none = none := rfl
  exact ⟨h, (eval_after_failed_fit_errors expLin idLog failSolver threeBoxes
    none h (some 0) (fun _ : Fin 1 => some 0)).1⟩

end MMQ
